import Mathlib

/-
Verification of the magnet_rss worker (src/index.js) against its
natural-language specification.

Modelling conventions:
 - JavaScript strings are lists of Unicode scalar values (`List Char`).
 - Bytes produced by TextEncoder are `Nat` values below 256.
 - The external key-value store is a record of the two persisted fields.
 - Host Date formatting is an uninterpreted function parameter.
-/

abbrev Str := List Char

/-! ### UTF-8 encoding, modelling `new TextEncoder().encode(...)` -/

/-- UTF-8 byte sequence of a single Unicode scalar value `v`
(1 byte below 0x80, 2 below 0x800, 3 below 0x10000, else 4). -/
def utf8e (v : Nat) : List Nat :=
  if v < 0x80 then [v]
  else if v < 0x800 then [0xC0 + v / 64, 0x80 + v % 64]
  else if v < 0x10000 then [0xE0 + v / 4096, 0x80 + v / 64 % 64, 0x80 + v % 64]
  else [0xF0 + v / 262144, 0x80 + v / 4096 % 64, 0x80 + v / 64 % 64, 0x80 + v % 64]

/-- Byte sequence of a whole string, as produced by `TextEncoder.encode`. -/
def utf8Bytes (s : Str) : List Nat :=
  s.flatMap (fun c => utf8e c.toNat)

/-! ### JavaScript dynamic values and ToString -/

/-- JavaScript values that can reach `timingSafeEqual` (the function has no
type guard, so any value can arrive). -/
inductive JSVal where
  | vstr (s : Str)
  | vnum (n : Int)
  | vbool (b : Bool)
  | vnull
  | vundef
deriving DecidableEq

/-- ECMAScript `ToString` on the modelled values. -/
def jsToString : JSVal → Str
  | .vstr s => s
  | .vnum n => (toString n).data
  | .vbool true => "true".data
  | .vbool false => "false".data
  | .vnull => "null".data
  | .vundef => "undefined".data

/-- The string `TextEncoder.encode` actually encodes for a given argument.
The WebIDL signature is `encode(optional USVString input = "")`, so an
`undefined` argument (absent or explicitly passed) selects the default empty
string and never reaches the USVString conversion; every other value goes
through the USVString conversion, which applies `ToString`. -/
def encodeUSV : JSVal → Str
  | .vundef => []
  | v => jsToString v

/-! ### timingSafeEqual (src/index.js, lines 226-237) -/

/-- Model of `timingSafeEqual` on two JavaScript strings: encode both to
UTF-8, reject on differing byte length, otherwise OR together the XOR of
every byte pair (`result |= aBuf[i] ^ bBuf[i]`) and compare with zero. -/
def timingSafeEqual (a b : Str) : Bool :=
  if (utf8Bytes a).length ≠ (utf8Bytes b).length then false
  else (List.foldl (fun r x => r ||| x) 0
          (List.zipWith (fun x y => x ^^^ y) (utf8Bytes a) (utf8Bytes b))) == 0

/-- Model of `timingSafeEqual` on arbitrary JavaScript values: the source
passes both arguments straight to `TextEncoder.encode`, which encodes the
string `encodeUSV` yields for each (the empty string for `undefined`, the
`ToString` coercion for any other non-string). -/
def timingSafeEqualJS (a b : JSVal) : Bool :=
  timingSafeEqual (encodeUSV a) (encodeUSV b)

/-! ### Injectivity of the UTF-8 encoding -/

theorem utf8e_ne_nil (v : Nat) : utf8e v ≠ [] := by
  unfold utf8e
  split_ifs <;> simp

theorem utf8e_inj {v w : Nat} (hv : v < 0x110000) (hw : w < 0x110000)
    (h : utf8e v = utf8e w) : v = w := by
  unfold utf8e at h
  split_ifs at h <;> simp_all <;> omega

theorem utf8e_length_eq_of_head {v w : Nat} (hv : v < 0x110000) (hw : w < 0x110000)
    (h : (utf8e v).head? = (utf8e w).head?) : (utf8e v).length = (utf8e w).length := by
  unfold utf8e at h ⊢
  split_ifs <;> simp_all <;> omega

theorem char_toNat_lt (c : Char) : c.toNat < 0x110000 := by
  rcases c.valid with h | h
  · exact Nat.lt_trans h (by decide)
  · exact h.2

theorem char_eq_of_toNat_eq {c d : Char} (h : c.toNat = d.toNat) : c = d :=
  Char.ext (UInt32.toNat.inj h)

theorem utf8e_append_inj {c d : Char} {r s : List Nat}
    (h : utf8e c.toNat ++ r = utf8e d.toNat ++ s) : c = d ∧ r = s := by
  have hhead : (utf8e c.toNat).head? = (utf8e d.toNat).head? := by
    have h1 := @List.head?_append_of_ne_nil Nat (utf8e c.toNat) r (utf8e_ne_nil c.toNat)
    have h2 := @List.head?_append_of_ne_nil Nat (utf8e d.toNat) s (utf8e_ne_nil d.toNat)
    rw [← h1, ← h2, h]
  have hlen := utf8e_length_eq_of_head (char_toNat_lt c) (char_toNat_lt d) hhead
  obtain ⟨h3, h4⟩ := List.append_inj h hlen
  exact ⟨char_eq_of_toNat_eq (utf8e_inj (char_toNat_lt c) (char_toNat_lt d) h3), h4⟩

theorem utf8Bytes_inj : ∀ {a b : Str}, utf8Bytes a = utf8Bytes b → a = b := by
  intro a
  induction a with
  | nil =>
    intro b h
    cases b with
    | nil => rfl
    | cons d bs =>
      exfalso
      simp only [utf8Bytes, List.flatMap_nil, List.flatMap_cons] at h
      exact utf8e_ne_nil d.toNat (List.append_eq_nil.mp h.symm).1
  | cons c as ih =>
    intro b h
    cases b with
    | nil =>
      exfalso
      simp only [utf8Bytes, List.flatMap_nil, List.flatMap_cons] at h
      exact utf8e_ne_nil c.toNat (List.append_eq_nil.mp h).1
    | cons d bs =>
      simp only [utf8Bytes, List.flatMap_cons] at h
      obtain ⟨hcd, hrest⟩ := utf8e_append_inj h
      exact hcd ▸ congrArg (List.cons c) (ih hrest)

/-! ### The XOR/OR accumulation loop -/

theorem or_eq_zero {a b : Nat} (h : a ||| b = 0) : a = 0 ∧ b = 0 := by
  constructor <;> apply Nat.eq_of_testBit_eq <;> intro i <;>
    have h2 := congrArg (fun z => Nat.testBit z i) h <;>
    simp only [Nat.testBit_or, Nat.zero_testBit, Bool.or_eq_false_iff] at h2 <;>
    simp [h2.1, h2.2]

theorem foldl_or_eq_zero_iff :
    ∀ (l : List Nat) (acc : Nat),
      List.foldl (fun r x => r ||| x) acc l = 0 ↔ acc = 0 ∧ ∀ x ∈ l, x = 0 := by
  intro l
  induction l with
  | nil => simp
  | cons y ys ih =>
    intro acc
    simp only [List.foldl_cons, ih, List.mem_cons]
    constructor
    · rintro ⟨h0, hall⟩
      obtain ⟨ha, hy⟩ := or_eq_zero h0
      refine ⟨ha, fun x hx => ?_⟩
      rcases hx with hx | hx
      · exact hx ▸ hy
      · exact hall x hx
    · rintro ⟨h0, hall⟩
      exact ⟨by simp [h0, hall y (Or.inl rfl)], fun x hx => hall x (Or.inr hx)⟩

theorem zipWith_xor_eq_zero :
    ∀ (xs ys : List Nat), xs.length = ys.length →
      (∀ z ∈ List.zipWith (fun x y => x ^^^ y) xs ys, z = 0) → xs = ys := by
  intro xs
  induction xs with
  | nil =>
    intro ys hlen _
    exact (List.length_eq_zero.mp hlen.symm).symm
  | cons x xs ih =>
    intro ys hlen hall
    cases ys with
    | nil => simp at hlen
    | cons y ys =>
      simp only [List.zipWith_cons_cons, List.mem_cons] at hall
      have hx : x = y := Nat.xor_eq_zero.mp (hall (x ^^^ y) (Or.inl rfl))
      have hrest := ih ys (by simpa using hlen) (fun z hz => hall z (Or.inr hz))
      rw [hx, hrest]

/-- XOR of a byte list with itself yields only zeros. -/
theorem zipWith_xor_self_zero :
    ∀ (l : List Nat) (z : Nat), z ∈ List.zipWith (fun x y => x ^^^ y) l l → z = 0 := by
  intro l
  induction l with
  | nil => intro z hz; simp at hz
  | cons x xs ih =>
    intro z hz
    simp only [List.zipWith_cons_cons, List.mem_cons] at hz
    rcases hz with hz | hz
    · simp [hz]
    · exact ih z hz

/-- The comparison loop is exact: `timingSafeEqual` returns `true` exactly on
equal strings (UTF-8 encoding is injective on Unicode scalar sequences). -/
theorem timingSafeEqual_eq_true_iff (a b : Str) :
    timingSafeEqual a b = true ↔ a = b := by
  unfold timingSafeEqual
  constructor
  · intro h
    split_ifs at h with hlen
    push_neg at hlen
    have h2 : List.foldl (fun r x => r ||| x) 0
        (List.zipWith (fun x y => x ^^^ y) (utf8Bytes a) (utf8Bytes b)) = 0 := by
      simpa using h
    have hz := (foldl_or_eq_zero_iff _ 0).mp h2
    exact utf8Bytes_inj (zipWith_xor_eq_zero _ _ hlen hz.2)
  · intro h
    subst h
    rw [if_neg (by simp)]
    simp only [beq_iff_eq]
    exact (foldl_or_eq_zero_iff _ 0).mpr ⟨rfl, zipWith_xor_self_zero _⟩

/-! ### escapeXml (src/index.js, lines 239-247) -/

/-- Replacement performed for one character by the global regex replace in
`escapeXml` (the lookup object, with the identity fallback). -/
def escapeXmlChar (c : Char) : Str :=
  if c = '<' then "&lt;".data
  else if c = '>' then "&gt;".data
  else if c = '&' then "&amp;".data
  else if c = Char.ofNat 39 then "&apos;".data
  else if c = '\"' then "&quot;".data
  else [c]

/-- Model of `escapeXml`: the single-character class regex with the `g` flag
rewrites every occurrence independently. -/
def escapeXml (s : Str) : Str := s.flatMap escapeXmlChar

/-- The five XML-reserved characters named by the specification. -/
def xmlReserved : List Char := ['&', '<', '>', Char.ofNat 39, '\"']

/-- Modelled from the spec wording of C7: the named entity reference assigned
to each reserved character. -/
def xmlEntityRef (c : Char) : Str :=
  if c = '&' then "&amp;".data
  else if c = '<' then "&lt;".data
  else if c = '>' then "&gt;".data
  else if c = Char.ofNat 39 then "&apos;".data
  else "&quot;".data

/-- Modelled from the spec wording of C7: replace each occurrence of a
reserved character with its entity reference, pass every other character
through unchanged. -/
def escapeXmlSpec (s : Str) : Str :=
  s.flatMap (fun c => if c ∈ xmlReserved then xmlEntityRef c else [c])

/-! ### sanitizeDisplayName (src/index.js, lines 211-214) -/

/-- Word characters of the regex class backslash-w: ASCII letters, digits and
underscore. -/
def isWordChar (c : Char) : Bool :=
  decide (('a' ≤ c ∧ c ≤ 'z') ∨ ('A' ≤ c ∧ c ≤ 'Z') ∨ ('0' ≤ c ∧ c ≤ '9') ∨ c = '_')

/-- Whitespace characters of the regex class backslash-s (ECMAScript
WhiteSpace and LineTerminator sets). -/
def isJsSpace (c : Char) : Bool :=
  decide (c = ' ' ∨ c = Char.ofNat 9 ∨ c = Char.ofNat 10 ∨ c = Char.ofNat 11 ∨
    c = Char.ofNat 12 ∨ c = Char.ofNat 13 ∨ c = Char.ofNat 0xa0 ∨
    c = Char.ofNat 0x1680 ∨ (Char.ofNat 0x2000 ≤ c ∧ c ≤ Char.ofNat 0x200a) ∨
    c = Char.ofNat 0x2028 ∨ c = Char.ofNat 0x2029 ∨ c = Char.ofNat 0x202f ∨
    c = Char.ofNat 0x205f ∨ c = Char.ofNat 0x3000 ∨ c = Char.ofNat 0xfeff)

/-- Characters kept by `sanitizeDisplayName`: the negated character class of
its regex (word characters, whitespace, and the listed punctuation). -/
def sanitizeKeep (c : Char) : Bool :=
  isWordChar c || isJsSpace c ||
  decide (c = '.' ∨ c = '-' ∨ c = '!' ∨ c = '?' ∨ c = '(' ∨ c = ')' ∨
    c = '[' ∨ c = ']' ∨ c = '\x7b' ∨ c = '\x7d' ∨ c = '@')

/-- Model of `sanitizeDisplayName`: delete every character outside the kept
set (replace with the empty string, globally). -/
def sanitizeDisplayName (name : Str) : Str := name.filter sanitizeKeep

/-! ### parseDisplayName (src/index.js, lines 200-209) -/

/-- Attempted match of the regex for an ampersand-dn-equals parameter at the
current position: four characters matching case-insensitively, then at least
one character different from the ampersand; the capture is the maximal such
run. -/
def dnAt : Str → Option Str
  | a :: d :: n :: e :: rest =>
    if a = '&' ∧ (d = 'd' ∨ d = 'D') ∧ (n = 'n' ∨ n = 'N') ∧ e = '=' then
      match rest with
      | [] => none
      | c :: _ => if c = '&' then none else some (rest.takeWhile (fun x => x ≠ '&'))
    else none
  | _ => none

/-- Regex scan: try the match at each successive position, returning the
first capture. -/
def findDn : Str → Option Str
  | [] => none
  | c :: rest =>
    match dnAt (c :: rest) with
    | some cap => some cap
    | none => findDn rest

/-- Numeric value of one hexadecimal digit. -/
def hexDigit (c : Char) : Option Nat :=
  if '0' ≤ c ∧ c ≤ '9' then some (c.toNat - 48)
  else if 'A' ≤ c ∧ c ≤ 'F' then some (c.toNat - 55)
  else if 'a' ≤ c ∧ c ≤ 'f' then some (c.toNat - 87)
  else none

/-- One percent escape: a percent sign followed by two hexadecimal digits,
yielding the encoded byte and the rest of the input. -/
def escByte : Str → Option (Nat × Str)
  | '%' :: a :: b :: rest =>
    match hexDigit a, hexDigit b with
    | some h, some l => some (16 * h + l, rest)
    | _, _ => none
  | _ => none

/-- One percent escape that must denote a UTF-8 continuation byte. -/
def contByte (s : Str) : Option (Nat × Str) :=
  match escByte s with
  | some (b, r) => if 0x80 ≤ b ∧ b ≤ 0xBF then some (b, r) else none
  | none => none

/-- Fuel-indexed body of `decodeURIComponent` (ECMAScript Decode): percent
escapes are decoded as strict UTF-8 byte sequences, any malformed escape or
byte sequence aborts with `none` (the URIError), other characters pass
through.  The fuel only bounds recursion; the initial input length always
suffices. -/
def decodeCore : Nat → Str → Option Str
  | _, [] => some []
  | 0, _ :: _ => none
  | fuel + 1, c :: rest =>
    if c ≠ '%' then
      match decodeCore fuel rest with
      | some t => some (c :: t)
      | none => none
    else
      match escByte (c :: rest) with
      | none => none
      | some (b1, r1) =>
        if b1 < 0x80 then
          match decodeCore fuel r1 with
          | some t => some (Char.ofNat b1 :: t)
          | none => none
        else if 0xC2 ≤ b1 ∧ b1 ≤ 0xDF then
          match contByte r1 with
          | none => none
          | some (b2, r2) =>
            match decodeCore fuel r2 with
            | some t => some (Char.ofNat ((b1 - 0xC0) * 64 + (b2 - 0x80)) :: t)
            | none => none
        else if 0xE0 ≤ b1 ∧ b1 ≤ 0xEF then
          match contByte r1 with
          | none => none
          | some (b2, r2) =>
            match contByte r2 with
            | none => none
            | some (b3, r3) =>
              if 0x800 ≤ (b1 - 0xE0) * 4096 + (b2 - 0x80) * 64 + (b3 - 0x80) ∧
                  ¬(0xD800 ≤ (b1 - 0xE0) * 4096 + (b2 - 0x80) * 64 + (b3 - 0x80) ∧
                    (b1 - 0xE0) * 4096 + (b2 - 0x80) * 64 + (b3 - 0x80) ≤ 0xDFFF) then
                match decodeCore fuel r3 with
                | some t =>
                  some (Char.ofNat ((b1 - 0xE0) * 4096 + (b2 - 0x80) * 64 + (b3 - 0x80)) :: t)
                | none => none
              else none
        else if 0xF0 ≤ b1 ∧ b1 ≤ 0xF4 then
          match contByte r1 with
          | none => none
          | some (b2, r2) =>
            match contByte r2 with
            | none => none
            | some (b3, r3) =>
              match contByte r3 with
              | none => none
              | some (b4, r4) =>
                if 0x10000 ≤ (b1 - 0xF0) * 262144 + (b2 - 0x80) * 4096 +
                      (b3 - 0x80) * 64 + (b4 - 0x80) ∧
                    (b1 - 0xF0) * 262144 + (b2 - 0x80) * 4096 +
                      (b3 - 0x80) * 64 + (b4 - 0x80) ≤ 0x10FFFF then
                  match decodeCore fuel r4 with
                  | some t =>
                    some (Char.ofNat ((b1 - 0xF0) * 262144 + (b2 - 0x80) * 4096 +
                      (b3 - 0x80) * 64 + (b4 - 0x80)) :: t)
                  | none => none
                else none
        else none

/-- Model of the host `decodeURIComponent`; `none` models the thrown
URIError. -/
def decodeURIComponent (s : Str) : Option Str := decodeCore s.length s

/-- Model of `parseDisplayName`: find the name parameter, URL-decode its
capture, and fall back to the raw capture when decoding throws. -/
def parseDisplayName (magnet : Str) : Option Str :=
  match findDn magnet with
  | none => none
  | some cap =>
    match decodeURIComponent cap with
    | some d => some d
    | none => some cap

/-! ### validateMagnetLink (src/index.js, lines 177-198) -/

/-- JavaScript `x || dflt` on an optional string: the empty string is falsy,
so it also selects the default. -/
def jsOrDefault (s : Option Str) (dflt : Str) : Str :=
  match s with
  | some t => if t = [] then dflt else t
  | none => dflt

/-- ASCII alphanumeric characters (the bracketed class of the magnet regex,
which already contains both letter cases). -/
def isAlnumAscii (c : Char) : Bool :=
  decide (('a' ≤ c ∧ c ≤ 'z') ∨ ('A' ≤ c ∧ c ≤ 'Z') ∨ ('0' ≤ c ∧ c ≤ '9'))

/-- ASCII lowering, the canonicalisation the `i` regex flag applies to the
ASCII pattern characters (no non-ASCII character canonicalises to ASCII). -/
def asciiLower (c : Char) : Char :=
  if 'A' ≤ c ∧ c ≤ 'Z' then Char.ofNat (c.toNat + 32) else c

/-- Case-insensitive character comparison for the anchored literal part of
the magnet regex. -/
def ciEqChar (a b : Char) : Bool := asciiLower a == asciiLower b

/-- Case-insensitive literal match at the start of the subject. -/
def ciPrefixMatch : Str → Str → Bool
  | [], _ => true
  | _ :: _, [] => false
  | p :: ps, s :: ss => ciEqChar p s && ciPrefixMatch ps ss

/-- The fixed scheme token of the magnet grammar (20 characters). -/
def magnetSchemeToken : Str := "magnet:?xt=urn:btih:".data

/-- Model of the anchored, case-insensitive magnet regex test: the literal
scheme token must match at the start, and at least 32 consecutive ASCII
alphanumeric characters must follow it (the bounded greedy group with no
trailing pattern succeeds exactly when 32 such characters are available; it
is not anchored at the end). -/
def magnetPatternTest (s : Str) : Bool :=
  ciPrefixMatch magnetSchemeToken s &&
  decide (32 ≤ (s.drop 20).length) &&
  ((s.drop 20).take 32).all isAlnumAscii

/-- Result object of `validateMagnetLink`. -/
structure MagnetValidation where
  valid : Bool
  message : Option Str
  displayName : Option Str
deriving DecidableEq

/-- Model of `validateMagnetLink` on a string argument (the handler has
already checked the dynamic type). -/
def validateMagnetLink (magnet : Str) : MagnetValidation :=
  if magnet.length < 40 then
    ⟨false, some "Invalid magnet format".data, none⟩
  else if ¬ magnetPatternTest magnet then
    ⟨false, some "Invalid magnet link. Must start with \"magnet:?xt=urn:btih:\"".data, none⟩
  else
    ⟨true, none, some (jsOrDefault (parseDisplayName magnet) "Unnamed Torrent".data)⟩

/-! ### JSON serialization (JSON.stringify as used by jsonResponse) -/

def lbrace : Char := Char.ofNat 123

def rbrace : Char := Char.ofNat 125

/-- Lower-case hexadecimal digit. -/
def hexChar (n : Nat) : Char :=
  if n < 10 then Char.ofNat (48 + n) else Char.ofNat (97 + (n - 10))

/-- JSON string escaping of one character, as performed by
`JSON.stringify`. -/
def jsonEscChar (c : Char) : Str :=
  if c = '\"' then ['\\', '\"']
  else if c = '\\' then ['\\', '\\']
  else if c = Char.ofNat 8 then ['\\', 'b']
  else if c = Char.ofNat 9 then ['\\', 't']
  else if c = Char.ofNat 10 then ['\\', 'n']
  else if c = Char.ofNat 12 then ['\\', 'f']
  else if c = Char.ofNat 13 then ['\\', 'r']
  else if c.toNat < 32 then
    ['\\', 'u', '0', '0', hexChar (c.toNat / 16), hexChar (c.toNat % 16)]
  else [c]

/-- A JSON string literal. -/
def jsonQuote (s : Str) : Str := '\"' :: (s.flatMap jsonEscChar ++ ['\"'])

/-- Values appearing in the worker's response payloads (every payload is a
flat object of strings and booleans). -/
inductive JField where
  | fstr (s : Str)
  | fbool (b : Bool)
deriving DecidableEq

def jsonFieldVal : JField → Str
  | .fstr s => jsonQuote s
  | .fbool true => "true".data
  | .fbool false => "false".data

/-- `JSON.stringify` of a flat object. -/
def jsonStringifyObj (fields : List (Str × JField)) : Str :=
  lbrace ::
    (List.intercalate [',']
      (fields.map (fun kv => jsonQuote kv.1 ++ ':' :: jsonFieldVal kv.2)) ++ [rbrace])

/-! ### HTTP responses and the key-value environment -/

/-- The parts of a `Response` the claims talk about: status, body text, and
the Content-Type header. -/
structure HttpResponse where
  status : Nat
  body : Str
  contentType : Option Str
deriving DecidableEq

/-- Model of `jsonResponse` (lines 216-224). -/
def jsonResponse (status : Nat) (fields : List (Str × JField)) : HttpResponse :=
  ⟨status, jsonStringifyObj fields, some "application/json".data⟩

/-- The two persisted fields of the external key-value store. -/
structure KVStore where
  latest_magnet : Option Str
  last_updated : Option Str
deriving DecidableEq

/-- The worker environment: the store binding and the secret
(`MAGNET_RSS_KEY`), which is an arbitrary dynamic value until checked. -/
structure Env where
  kv : KVStore
  secretKey : Option JSVal
deriving DecidableEq

/-! ### verifyAuth (src/index.js, lines 149-175) -/

/-- Model of `verifyAuth`: `none` means authentication passed; `some r`
means the early response `r` is returned.  The falsy checks on the secret
and the header are modelled explicitly (the empty string is falsy). -/
def verifyAuth (providedToken : Option Str) (secretKey : Option JSVal) :
    Option HttpResponse :=
  match secretKey with
  | some (.vstr s) =>
    if s = [] then
      some (jsonResponse 500 [("error".data, .fstr "Server configuration error".data)])
    else
      match providedToken with
      | none =>
        some (jsonResponse 401 [("error".data, .fstr "Unauthorized: Invalid token format".data)])
      | some t =>
        if t = [] then
          some (jsonResponse 401 [("error".data, .fstr "Unauthorized: Invalid token format".data)])
        else if ¬ (List.isPrefixOf "Bearer ".data t) then
          some (jsonResponse 401 [("error".data, .fstr "Unauthorized: Invalid token format".data)])
        else if ¬ timingSafeEqual t ("Bearer ".data ++ s) then
          some (jsonResponse 401 [("error".data, .fstr "Unauthorized".data)])
        else none
  | _ => some (jsonResponse 500 [("error".data, .fstr "Server configuration error".data)])

/-! ### handleUpdateRequest (src/index.js, lines 69-123) -/

/-- Result of a successful `request.json()` call: any JSON value.  Objects
are modelled through their optional `magnet` property, the single property
the handler reads. -/
inductive ParsedJson where
  | jnull
  | jbool (b : Bool)
  | jnum (n : Int)
  | jstr (s : Str)
  | jobj (magnet : Option JSVal)
deriving DecidableEq

/-- The guard on the parsed body: it demands an object whose `magnet`
property is a string (a falsy body has no string `magnet` property either,
and both arms of the guard produce the same 400 response). -/
def magnetField : ParsedJson → Option Str
  | .jobj (some (.vstr s)) => some s
  | _ => none

/-- Model of `handleUpdateRequest`.  Inputs: the Authorization header, the
outcome of `request.json()` (`Except.error` models the parse throw), the
environment, and the ISO timestamp the host clock yields for this request.
Output: the response paired with the key-value store after the request; the
two puts are modelled as the successful write of both fields. -/
def handleUpdateRequest (auth : Option Str) (body : Except Unit ParsedJson)
    (env : Env) (nowISO : Str) : HttpResponse × KVStore :=
  match verifyAuth auth env.secretKey with
  | some err => (err, env.kv)
  | none =>
    match body with
    | .error _ =>
      (jsonResponse 400 [("error".data, .fstr "Invalid JSON body".data)], env.kv)
    | .ok pj =>
      match magnetField pj with
      | none =>
        (jsonResponse 400
          [("error".data, .fstr "Missing magnet field in request body".data)], env.kv)
      | some m =>
        if (validateMagnetLink m).valid then
          (jsonResponse 200
            [("success".data, .fbool true),
             ("message".data, .fstr "Magnet link updated successfully".data),
             ("display_name".data, .fstr ((validateMagnetLink m).displayName.getD [])),
             ("updated_at".data, .fstr nowISO)],
           ⟨some m, some nowISO⟩)
        else
          (jsonResponse 400
            [("error".data, .fstr ((validateMagnetLink m).message.getD []))], env.kv)

/-! ### generateRssFeed (src/index.js, lines 125-147) -/

def rssSeg1 : Str :=
  ("<?xml version=\"1.0\" encoding=\"UTF-8\"?>\n<rss version=\"2.0\" " ++
   "xmlns:atom=\"http://www.w3.org/2005/Atom\">\n<channel>\n" ++
   "  <title>Latest Magnet Link</title>\n  <link>").data

def rssSeg2 : Str :=
  ("</link>\n  <description>This feed provides the latest magnet link" ++
   "</description>\n  <atom:link href=\"").data

def rssSeg3 : Str :=
  ("\" rel=\"self\" type=\"application/rss+xml\" />\n" ++
   "  <generator>Cloudflare Workers Magnet RSS</generator>\n  <lastBuildDate>").data

def rssSeg4 : Str := "</lastBuildDate>\n  \n  <item>\n    <title>".data

def rssSeg5 : Str := "</title>\n    <link><![CDATA[".data

def rssSeg6 : Str := "]]></link>\n    <guid isPermaLink=\"false\"><![CDATA[".data

def rssSeg7 : Str := "]]></guid>\n    <pubDate>".data

def rssSeg8 : Str := "</pubDate>\n    <description><![CDATA[Latest magnet link: ".data

def rssSeg9 : Str := "]]></description>\n  </item>\n</channel>\n</rss>".data

/-- Model of `generateRssFeed`: the template literal with its five
interpolations.  `origin` abstracts `new URL(request.url).origin`; `pubDate`
is the already-formatted UTC date string. -/
def generateRssFeed (origin magnetLink displayName pubDate : Str) : Str :=
  rssSeg1 ++ escapeXml origin ++ rssSeg2 ++ escapeXml (origin ++ "/rss".data) ++
  rssSeg3 ++ pubDate ++ rssSeg4 ++ escapeXml displayName ++ rssSeg5 ++
  magnetLink ++ rssSeg6 ++ magnetLink ++ rssSeg7 ++ pubDate ++ rssSeg8 ++
  magnetLink ++ rssSeg9

/-! ### handleRssRequest (src/index.js, lines 33-67) -/

/-- The display name the feed handler derives (line 46): the parsed name
parameter or the placeholder, with the JS falsy check. -/
def rssDisplayName (magnetLink : Str) : Str :=
  jsOrDefault (parseDisplayName magnetLink) "Latest Torrent".data

/-- Model of `handleRssRequest`.  `origin` abstracts
`new URL(request.url).origin`; `dateFmt` abstracts the host Date pipeline
(`new Date(ts).toUTCString()`, with `none` meaning the current time). -/
def handleRssRequest (origin : Str) (dateFmt : Option Str → Str) (kv : KVStore) :
    HttpResponse :=
  match kv.latest_magnet with
  | none => jsonResponse 404 [("error".data, .fstr "Magnet link not available yet".data)]
  | some magnetLink =>
    ⟨200,
     generateRssFeed origin magnetLink
       (sanitizeDisplayName (rssDisplayName magnetLink)) (dateFmt kv.last_updated),
     some "application/xml; charset=utf-8".data⟩

/-! ### The router-level try/catch (src/index.js, lines 6-31) -/

/-- A thrown JavaScript error, with its message and stack. -/
structure JSError where
  message : Str
  stack : Str
deriving DecidableEq

/-- Model of the try/catch wrapper in `fetch`: a handler outcome is either a
response or a thrown error; a thrown error is converted to the 500 JSON
payload built from the fixed label and the error message (the stack is only
logged, never serialized). -/
def routerCatch (outcome : Except JSError HttpResponse) : HttpResponse :=
  match outcome with
  | .ok r => r
  | .error e =>
    jsonResponse 500
      [("error".data, .fstr "Internal Server Error".data),
       ("message".data, .fstr e.message)]

/-- `needle` occurs contiguously inside `hay`. -/
def containsSeg (needle hay : Str) : Prop := ∃ p q, hay = p ++ needle ++ q

/-! ## Claim C1 (corrected) -/

/-- C1 counterexample: the claim says `timingSafeEqual` returns false
whenever either argument is not a string, but the source has no type guard;
`TextEncoder.encode` coerces the number 123 to the string "123" through the
USVString conversion, and the comparison then returns true against the
string "123". -/
theorem C1_timingSafeEqual_counterexample :
    timingSafeEqualJS (.vnum 123) (.vstr "123".data) = true := by decide

/-- C1 (amended): for strings of equal length `timingSafeEqual` returns true
exactly on equal inputs, and for strings of unequal length it returns false;
but a non-string argument is not rejected: `undefined` is encoded as the
empty string (the WebIDL optional-argument default) and any other value is
coerced to its string representation, and the function decides equality of
the two encoded strings — so in particular `undefined` compares equal to the
empty string and unequal to the string "undefined". -/
theorem C1_timingSafeEqual_amended :
    (∀ a b : Str, a.length = b.length → (timingSafeEqual a b = true ↔ a = b)) ∧
    (∀ a b : Str, a.length ≠ b.length → timingSafeEqual a b = false) ∧
    (∀ v w : JSVal, timingSafeEqualJS v w = true ↔ encodeUSV v = encodeUSV w) ∧
    (timingSafeEqualJS .vundef (.vstr []) = true ∧
      timingSafeEqualJS .vundef (.vstr "undefined".data) = false) := by
  refine ⟨fun a b _ => timingSafeEqual_eq_true_iff a b, fun a b hab => ?_,
    fun v w => timingSafeEqual_eq_true_iff _ _, by decide, by decide⟩
  cases hq : timingSafeEqual a b
  · rfl
  · exact absurd (congrArg List.length ((timingSafeEqual_eq_true_iff a b).mp hq)) hab

/-- C1 witness: the amended statement applied at concrete inputs. -/
theorem C1_timingSafeEqual_amended_witness :
    timingSafeEqual "abc".data "abc".data = true ∧
    timingSafeEqual "ab".data "a".data = false :=
  ⟨(C1_timingSafeEqual_amended.1 "abc".data "abc".data rfl).mpr rfl,
   C1_timingSafeEqual_amended.2.1 "ab".data "a".data (by decide)⟩

/-! ## Claim C7 (confirmed) -/

theorem escapeXmlChar_eq_spec (c : Char) :
    escapeXmlChar c = if c ∈ xmlReserved then xmlEntityRef c else [c] := by
  simp only [escapeXmlChar, xmlEntityRef, xmlReserved, List.mem_cons, List.not_mem_nil]
  split_ifs <;> simp_all

/-- C7: `escapeXml` replaces each occurrence of the five characters
ampersand, less-than, greater-than, apostrophe and double quote with its
named entity reference and leaves every other character unchanged (the
character-wise rewriting stated by the specification). -/
theorem C7_escapeXml_spec (s : Str) : escapeXml s = escapeXmlSpec s := by
  unfold escapeXml escapeXmlSpec
  induction s with
  | nil => rfl
  | cons c t ih => simp only [List.flatMap_cons, ih, escapeXmlChar_eq_spec]

/-! ## Claim C2 (corrected) -/

theorem ciPrefixMatch_self_append : ∀ (p r : Str), ciPrefixMatch p (p ++ r) = true := by
  intro p r
  induction p with
  | nil => rfl
  | cons c cs ih => simp [ciPrefixMatch, ciEqChar, ih]

theorem drop20_token (l : Str) : (magnetSchemeToken ++ l).drop 20 = l :=
  List.drop_left' (by decide)

theorem validate_false_of_pattern_false {s : Str} (hp : magnetPatternTest s = false) :
    (validateMagnetLink s).valid = false := by
  unfold validateMagnetLink
  split_ifs <;> simp_all

/-- C2 counterexample: a hash segment of 41 alphanumeric characters is
accepted, not rejected — the magnet regex has no terminator after its
bounded group, so it simply matches the first 40 of the 41 characters. -/
theorem C2_validateMagnetLink_counterexample :
    (validateMagnetLink (magnetSchemeToken ++ List.replicate 41 'a')).valid = true ∧
    (List.replicate 41 'a').all isAlnumAscii = true ∧
    (List.replicate 41 'a').length = 41 := by decide

/-- C2 (amended): a candidate missing the case-insensitive scheme token is
rejected; a candidate whose hash segment has 31 alphanumeric characters
(followed by nothing or by a non-alphanumeric character) is rejected; and a
candidate whose hash segment has at least 32 alphanumeric characters after
the token — including 32 through 40, but also 41 or more — is accepted,
because the pattern only requires 32 leading alphanumerics and is not
anchored at the end. -/
theorem C2_validateMagnetLink_amended :
    (∀ s : Str, ciPrefixMatch magnetSchemeToken s = false →
      (validateMagnetLink s).valid = false) ∧
    (∀ h t : Str, h.all isAlnumAscii = true → h.length = 31 →
      (∀ c, t.head? = some c → isAlnumAscii c = false) →
      (validateMagnetLink (magnetSchemeToken ++ (h ++ t))).valid = false) ∧
    (∀ h t : Str, h.all isAlnumAscii = true → 32 ≤ h.length →
      (validateMagnetLink (magnetSchemeToken ++ (h ++ t))).valid = true) := by
  refine ⟨?_, ?_, ?_⟩
  · intro s hs
    apply validate_false_of_pattern_false
    simp [magnetPatternTest, hs]
  · intro h t hall hlen hhead
    apply validate_false_of_pattern_false
    unfold magnetPatternTest
    rw [drop20_token]
    cases t with
    | nil => simp [hlen]
    | cons c t2 =>
      have hc : isAlnumAscii c = false := hhead c rfl
      have htake : (h ++ c :: t2).take 32 = h ++ [c] := by
        rw [List.take_append_eq_append_take, List.take_of_length_le (by omega), hlen]
        rfl
      rw [htake]
      simp [hc]
  · intro h t hall hlen
    have hlen40 : ¬ ((magnetSchemeToken ++ (h ++ t)).length < 40) := by
      simp only [List.length_append]
      have : magnetSchemeToken.length = 20 := by decide
      omega
    have hpat : magnetPatternTest (magnetSchemeToken ++ (h ++ t)) = true := by
      unfold magnetPatternTest
      rw [drop20_token, ciPrefixMatch_self_append]
      have h32 : 32 ≤ (h ++ t).length := by
        simp only [List.length_append]
        omega
      have htake : (h ++ t).take 32 = h.take 32 ++ ([] : Str).take (32 - h.length) := by
        rw [List.take_append_eq_append_take]
        congr 1
        rw [Nat.sub_eq_zero_of_le hlen]
        simp
      have hallt : ((h ++ t).take 32).all isAlnumAscii = true := by
        rw [htake]
        simp only [List.take_nil, List.append_nil]
        rw [List.all_eq_true] at hall ⊢
        exact fun x hx => hall x (List.take_subset 32 h hx)
      have hd : decide (32 ≤ (h ++ t).length) = true := decide_eq_true h32
      rw [hallt, hd]
      rfl
    unfold validateMagnetLink
    rw [if_neg hlen40, if_neg (by rw [hpat]; exact not_not_intro rfl)]

/-- C2 witness: the amended statement applied at concrete inputs (a 31
character hash rejected, a 40 character hash accepted). -/
theorem C2_validateMagnetLink_amended_witness :
    (validateMagnetLink (magnetSchemeToken ++ (List.replicate 31 'a' ++ []))).valid = false ∧
    (validateMagnetLink (magnetSchemeToken ++ (List.replicate 40 'b' ++ []))).valid = true :=
  ⟨C2_validateMagnetLink_amended.2.1 (List.replicate 31 'a') [] (by decide) (by decide)
      (fun c hc => by cases hc),
   C2_validateMagnetLink_amended.2.2 (List.replicate 40 'b') [] (by decide) (by decide)⟩

/-! ## Claim C3 (corrected) -/

/-- C3 counterexample: the catch block is claimed never to include the
exception's internal message, but the 500 payload it builds contains the
thrown message verbatim (here "boom"). -/
theorem C3_routerCatch_counterexample :
    (routerCatch (.error ⟨"boom".data, "trace".data⟩)).status = 500 ∧
    containsSeg "boom".data (routerCatch (.error ⟨"boom".data, "trace".data⟩)).body := by
  refine ⟨rfl, ⟨"\x7b\"error\":\"Internal Server Error\",\"message\":\"".data,
    "\"\x7d".data, by decide⟩⟩

/-- C3 (amended): an uncaught handler exception is converted to a 500
response whose body is the fixed-shape JSON payload of a generic error label
together with the exception's own message string; the stack trace is not
serialized (the response does not depend on it). -/
theorem C3_routerCatch_amended :
    ∀ e : JSError,
      (routerCatch (.error e)).status = 500 ∧
      (routerCatch (.error e)).body =
        jsonStringifyObj
          [("error".data, .fstr "Internal Server Error".data),
           ("message".data, .fstr e.message)] ∧
      (∀ st : Str, routerCatch (.error ⟨e.message, st⟩) = routerCatch (.error e)) :=
  fun _ => ⟨rfl, rfl, fun _ => rfl⟩

/-! ## Claim C4 (confirmed) -/

theorem verifyAuth_bad {s : Str} (hs : s ≠ []) {auth : Option Str}
    (hne : auth ≠ some ("Bearer ".data ++ s)) :
    ∃ r, verifyAuth auth (some (.vstr s)) = some r ∧ r.status = 401 := by
  simp only [verifyAuth]
  rw [if_neg hs]
  cases auth with
  | none => exact ⟨_, rfl, rfl⟩
  | some t =>
    simp only []
    split_ifs with h1 h2 h3 <;>
      first
      | exact ⟨_, rfl, rfl⟩
      | exact absurd (congrArg some ((timingSafeEqual_eq_true_iff _ _).mp h3)) hne

/-- C4: with a properly configured non-empty string secret, any POST /update
request whose Authorization header is not exactly "Bearer " followed by the
secret (missing header, malformed header, or wrong token alike) is answered
with 401; the stored state is unchanged and the response is computed without
looking at the request body. -/
theorem C4_update_auth :
    ∀ (s : Str) (env : Env) (auth : Option Str) (body : Except Unit ParsedJson)
      (now : Str),
      env.secretKey = some (.vstr s) → s ≠ [] →
      auth ≠ some ("Bearer ".data ++ s) →
      (handleUpdateRequest auth body env now).1.status = 401 ∧
      (handleUpdateRequest auth body env now).2 = env.kv ∧
      (∀ body2, handleUpdateRequest auth body env now =
        handleUpdateRequest auth body2 env now) := by
  intro s env auth body now henv hs hne
  obtain ⟨r, hv, hr⟩ := verifyAuth_bad hs hne
  have h2 : ∀ b2 : Except Unit ParsedJson,
      handleUpdateRequest auth b2 env now = (r, env.kv) := by
    intro b2
    simp only [handleUpdateRequest, henv, hv]
  rw [h2 body]
  exact ⟨hr, rfl, fun body2 => (h2 body2).symm⟩

/-- C4 witness: the theorem applied at a concrete wrong-token request. -/
theorem C4_update_auth_witness :
    (handleUpdateRequest (some "Bearer nope".data) (.error ())
      ⟨⟨none, none⟩, some (.vstr "sek".data)⟩ "t".data).1.status = 401 ∧
    (handleUpdateRequest (some "Bearer nope".data) (.error ())
      ⟨⟨none, none⟩, some (.vstr "sek".data)⟩ "t".data).2 = (⟨none, none⟩ : KVStore) ∧
    (∀ body2, handleUpdateRequest (some "Bearer nope".data) (.error ())
        ⟨⟨none, none⟩, some (.vstr "sek".data)⟩ "t".data =
      handleUpdateRequest (some "Bearer nope".data) body2
        ⟨⟨none, none⟩, some (.vstr "sek".data)⟩ "t".data) :=
  C4_update_auth "sek".data ⟨⟨none, none⟩, some (.vstr "sek".data)⟩
    (some "Bearer nope".data) (.error ()) "t".data rfl (by decide) (by decide)

/-! ## Claim C5 (confirmed) -/

theorem verifyAuth_ok {s : Str} (hs : s ≠ []) :
    verifyAuth (some ("Bearer ".data ++ s)) (some (.vstr s)) = none := by
  simp only [verifyAuth]
  rw [if_neg hs]
  rw [if_neg (by simp)]
  rw [if_neg (by
    rw [not_not, List.isPrefixOf_iff_prefix]
    exact List.prefix_append _ _)]
  rw [if_neg (by
    rw [not_not]
    exact (timingSafeEqual_eq_true_iff _ _).mpr rfl)]

/-- C5: a POST /update request that authenticates but carries malformed
JSON, a body without a string magnet field, or an identifier failing the
grammar, is answered with 400 and the two stored fields are unchanged. -/
theorem C5_update_bad_body :
    ∀ (s : Str) (env : Env) (body : Except Unit ParsedJson) (now : Str),
      env.secretKey = some (.vstr s) → s ≠ [] →
      (body = .error () ∨
       (∃ pj, body = .ok pj ∧ magnetField pj = none) ∨
       (∃ pj m, body = .ok pj ∧ magnetField pj = some m ∧
         (validateMagnetLink m).valid = false)) →
      (handleUpdateRequest (some ("Bearer ".data ++ s)) body env now).1.status = 400 ∧
      (handleUpdateRequest (some ("Bearer ".data ++ s)) body env now).2 = env.kv := by
  intro s env body now henv hs hbad
  rcases hbad with hb | ⟨pj, hb, hm⟩ | ⟨pj, m, hb, hm, hv⟩
  · subst hb
    have h1 : handleUpdateRequest (some ("Bearer ".data ++ s)) (.error ()) env now =
        (jsonResponse 400 [("error".data, .fstr "Invalid JSON body".data)], env.kv) := by
      simp only [handleUpdateRequest, henv, verifyAuth_ok hs]
    rw [h1]
    exact ⟨rfl, rfl⟩
  · subst hb
    have h1 : handleUpdateRequest (some ("Bearer ".data ++ s)) (.ok pj) env now =
        (jsonResponse 400
          [("error".data, .fstr "Missing magnet field in request body".data)], env.kv) := by
      simp only [handleUpdateRequest, henv, verifyAuth_ok hs, hm]
    rw [h1]
    exact ⟨rfl, rfl⟩
  · subst hb
    have h1 : handleUpdateRequest (some ("Bearer ".data ++ s)) (.ok pj) env now =
        (jsonResponse 400
          [("error".data, .fstr ((validateMagnetLink m).message.getD []))], env.kv) := by
      simp only [handleUpdateRequest, henv, verifyAuth_ok hs, hm]
      rw [if_neg (by rw [hv]; exact Bool.false_ne_true)]
    rw [h1]
    exact ⟨rfl, rfl⟩

/-- C5 witness: the theorem applied at a concrete request whose body is the
invalid identifier "not-a-magnet"; the previously stored fields survive. -/
theorem C5_update_bad_body_witness :
    (handleUpdateRequest (some ("Bearer ".data ++ "k".data))
      (.ok (.jobj (some (.vstr "not-a-magnet".data))))
      ⟨⟨some "old".data, some "t0".data⟩, some (.vstr "k".data)⟩ "t1".data).1.status = 400 ∧
    (handleUpdateRequest (some ("Bearer ".data ++ "k".data))
      (.ok (.jobj (some (.vstr "not-a-magnet".data))))
      ⟨⟨some "old".data, some "t0".data⟩, some (.vstr "k".data)⟩ "t1".data).2 =
      (⟨some "old".data, some "t0".data⟩ : KVStore) :=
  C5_update_bad_body "k".data
    ⟨⟨some "old".data, some "t0".data⟩, some (.vstr "k".data)⟩
    (.ok (.jobj (some (.vstr "not-a-magnet".data)))) "t1".data rfl (by decide)
    (Or.inr (Or.inr ⟨.jobj (some (.vstr "not-a-magnet".data)), "not-a-magnet".data,
      rfl, rfl, by decide⟩))

/-! ## Claim C6 (confirmed) -/

theorem handleRss_some (origin : Str) (dateFmt : Option Str → Str) (kv : KVStore)
    (m : Str) (hkv : kv.latest_magnet = some m) :
    handleRssRequest origin dateFmt kv =
      ⟨200, generateRssFeed origin m (sanitizeDisplayName (rssDisplayName m))
        (dateFmt kv.last_updated), some "application/xml; charset=utf-8".data⟩ := by
  simp only [handleRssRequest, hkv]

/-- C6: whenever an identifier is stored, the rendered feed contains it
byte-identical — not escaped — inside the CDATA sections of the item's link,
guid and description elements. -/
theorem C6_rss_cdata :
    ∀ (origin : Str) (dateFmt : Option Str → Str) (kv : KVStore) (m : Str),
      kv.latest_magnet = some m →
      containsSeg ("<link><![CDATA[".data ++ m ++ "]]></link>".data)
        (handleRssRequest origin dateFmt kv).body ∧
      containsSeg ("<guid isPermaLink=\"false\"><![CDATA[".data ++ m ++ "]]></guid>".data)
        (handleRssRequest origin dateFmt kv).body ∧
      containsSeg ("<description><![CDATA[Latest magnet link: ".data ++ m ++
          "]]></description>".data)
        (handleRssRequest origin dateFmt kv).body := by
  intro origin dateFmt kv m hkv
  rw [handleRss_some origin dateFmt kv m hkv]
  refine ⟨?_, ?_, ?_⟩
  · refine ⟨rssSeg1 ++ escapeXml origin ++ rssSeg2 ++ escapeXml (origin ++ "/rss".data) ++
      rssSeg3 ++ dateFmt kv.last_updated ++ rssSeg4 ++
      escapeXml (sanitizeDisplayName (rssDisplayName m)) ++ "</title>\n    ".data,
      "\n    <guid isPermaLink=\"false\"><![CDATA[".data ++ m ++ rssSeg7 ++
      dateFmt kv.last_updated ++ rssSeg8 ++ m ++ rssSeg9, ?_⟩
    show generateRssFeed origin m (sanitizeDisplayName (rssDisplayName m))
      (dateFmt kv.last_updated) = _
    rw [generateRssFeed,
      show rssSeg5 = "</title>\n    ".data ++ "<link><![CDATA[".data from by decide,
      show rssSeg6 = "]]></link>".data ++
        "\n    <guid isPermaLink=\"false\"><![CDATA[".data from by decide]
    simp [List.append_assoc]
  · refine ⟨rssSeg1 ++ escapeXml origin ++ rssSeg2 ++ escapeXml (origin ++ "/rss".data) ++
      rssSeg3 ++ dateFmt kv.last_updated ++ rssSeg4 ++
      escapeXml (sanitizeDisplayName (rssDisplayName m)) ++ rssSeg5 ++ m ++
      "]]></link>\n    ".data,
      "\n    <pubDate>".data ++ dateFmt kv.last_updated ++ rssSeg8 ++ m ++ rssSeg9, ?_⟩
    show generateRssFeed origin m (sanitizeDisplayName (rssDisplayName m))
      (dateFmt kv.last_updated) = _
    rw [generateRssFeed,
      show rssSeg6 = "]]></link>\n    ".data ++
        "<guid isPermaLink=\"false\"><![CDATA[".data from by decide,
      show rssSeg7 = "]]></guid>".data ++ "\n    <pubDate>".data from by decide]
    simp [List.append_assoc]
  · refine ⟨rssSeg1 ++ escapeXml origin ++ rssSeg2 ++ escapeXml (origin ++ "/rss".data) ++
      rssSeg3 ++ dateFmt kv.last_updated ++ rssSeg4 ++
      escapeXml (sanitizeDisplayName (rssDisplayName m)) ++ rssSeg5 ++ m ++ rssSeg6 ++
      m ++ rssSeg7 ++ dateFmt kv.last_updated ++ "</pubDate>\n    ".data,
      "\n  </item>\n</channel>\n</rss>".data, ?_⟩
    show generateRssFeed origin m (sanitizeDisplayName (rssDisplayName m))
      (dateFmt kv.last_updated) = _
    rw [generateRssFeed,
      show rssSeg8 = "</pubDate>\n    ".data ++
        "<description><![CDATA[Latest magnet link: ".data from by decide,
      show rssSeg9 = "]]></description>".data ++
        "\n  </item>\n</channel>\n</rss>".data from by decide]
    simp [List.append_assoc]

/-- C6 witness: the theorem applied to a concrete stored identifier. -/
theorem C6_rss_cdata_witness :
    containsSeg ("<link><![CDATA[".data ++ "MAG".data ++ "]]></link>".data)
      (handleRssRequest "o".data (fun _ => "d".data) ⟨some "MAG".data, none⟩).body ∧
    containsSeg ("<guid isPermaLink=\"false\"><![CDATA[".data ++ "MAG".data ++
        "]]></guid>".data)
      (handleRssRequest "o".data (fun _ => "d".data) ⟨some "MAG".data, none⟩).body ∧
    containsSeg ("<description><![CDATA[Latest magnet link: ".data ++ "MAG".data ++
        "]]></description>".data)
      (handleRssRequest "o".data (fun _ => "d".data) ⟨some "MAG".data, none⟩).body :=
  C6_rss_cdata "o".data (fun _ => "d".data) ⟨some "MAG".data, none⟩ "MAG".data rfl

/-! ## Claim C8 (confirmed) -/

/-- C8: GET /rss answers 404 when no identifier is stored, and 200 with
content type application/xml; charset=utf-8 when one is stored. -/
theorem C8_rss_status :
    ∀ (origin : Str) (dateFmt : Option Str → Str) (kv : KVStore),
      (kv.latest_magnet = none → (handleRssRequest origin dateFmt kv).status = 404) ∧
      (∀ m, kv.latest_magnet = some m →
        (handleRssRequest origin dateFmt kv).status = 200 ∧
        (handleRssRequest origin dateFmt kv).contentType =
          some "application/xml; charset=utf-8".data) := by
  intro origin dateFmt kv
  constructor
  · intro h
    simp only [handleRssRequest, h]
    rfl
  · intro m h
    rw [handleRss_some origin dateFmt kv m h]
    exact ⟨rfl, rfl⟩

/-- C8 witness: both branches of the theorem at concrete stores. -/
theorem C8_rss_status_witness :
    (handleRssRequest [] (fun _ => []) ⟨none, none⟩).status = 404 ∧
    (handleRssRequest [] (fun _ => []) ⟨some "m".data, none⟩).status = 200 :=
  ⟨(C8_rss_status [] (fun _ => []) ⟨none, none⟩).1 rfl,
   ((C8_rss_status [] (fun _ => []) ⟨some "m".data, none⟩).2 "m".data rfl).1⟩

/-! ## Claim C9 (confirmed) -/

/-- C9: when the identifier carries a name parameter, `parseDisplayName`
URL-decodes the captured value and falls back to the raw capture when
decoding throws; when there is no name parameter it yields nothing, and the
feed handler then uses the fixed placeholder. -/
theorem C9_parseDisplayName :
    (∀ (magnet cap : Str), findDn magnet = some cap →
      parseDisplayName magnet = some ((decodeURIComponent cap).getD cap)) ∧
    (∀ magnet : Str, findDn magnet = none →
      parseDisplayName magnet = none ∧
      rssDisplayName magnet = "Latest Torrent".data) := by
  constructor
  · intro magnet cap h
    simp only [parseDisplayName, h]
    cases hd : decodeURIComponent cap <;> simp [hd]
  · intro magnet h
    have hp : parseDisplayName magnet = none := by simp only [parseDisplayName, h]
    exact ⟨hp, by simp only [rssDisplayName, jsOrDefault, hp]⟩

/-- C9 witness: on a magnet link with a 40 character hash and the name
parameter My%20File, extraction yields the decoded string "My File". -/
theorem C9_parseDisplayName_witness :
    parseDisplayName ("magnet:?xt=urn:btih:".data ++ List.replicate 40 'a' ++
      "&dn=My%20File".data) = some "My File".data := by
  rw [C9_parseDisplayName.1
    ("magnet:?xt=urn:btih:".data ++ List.replicate 40 'a' ++ "&dn=My%20File".data)
    "My%20File".data (by decide)]
  decide

/-! ## Claim C10 (confirmed) -/

theorem escapeXmlChar_keep {c : Char} (h : sanitizeKeep c = true) :
    escapeXmlChar c = [c] := by
  unfold escapeXmlChar
  split_ifs with h1 h2 h3 h4 h5
  · exact absurd h (by rw [h1]; decide)
  · exact absurd h (by rw [h2]; decide)
  · exact absurd h (by rw [h3]; decide)
  · exact absurd h (by rw [h4]; decide)
  · exact absurd h (by rw [h5]; decide)
  · rfl

theorem escapeXml_sanitize (name : Str) :
    escapeXml (sanitizeDisplayName name) = sanitizeDisplayName name := by
  unfold sanitizeDisplayName
  induction name with
  | nil => rfl
  | cons c t ih =>
    rw [List.filter_cons]
    by_cases hk : sanitizeKeep c = true
    · rw [if_pos hk]
      have h2 : escapeXml (c :: t.filter sanitizeKeep) =
          escapeXmlChar c ++ escapeXml (t.filter sanitizeKeep) := rfl
      rw [h2, escapeXmlChar_keep hk, ih]
      rfl
    · rw [if_neg hk]
      exact ih

/-- C10: the display name is sanitized before XML escaping, and after
sanitization escaping is the identity (the five reserved characters are
deleted, not escaped), so the item's title element carries the sanitized
name verbatim; the title rendered in the feed can therefore differ from the
display_name the update response reports for the same identifier. -/
theorem C10_sanitized_title :
    (∀ name : Str, escapeXml (sanitizeDisplayName name) = sanitizeDisplayName name) ∧
    (∀ (origin : Str) (dateFmt : Option Str → Str) (kv : KVStore) (m : Str),
      kv.latest_magnet = some m →
      containsSeg ("<title>".data ++ sanitizeDisplayName (rssDisplayName m) ++
          "</title>".data)
        (handleRssRequest origin dateFmt kv).body) ∧
    (∃ magnet : Str,
      (validateMagnetLink magnet).displayName = some "a<b".data ∧
      sanitizeDisplayName (rssDisplayName magnet) = "ab".data) := by
  refine ⟨escapeXml_sanitize, ?_, ?_⟩
  · intro origin dateFmt kv m hkv
    rw [handleRss_some origin dateFmt kv m hkv]
    refine ⟨rssSeg1 ++ escapeXml origin ++ rssSeg2 ++ escapeXml (origin ++ "/rss".data) ++
      rssSeg3 ++ dateFmt kv.last_updated ++ "</lastBuildDate>\n  \n  <item>\n    ".data,
      "\n    <link><![CDATA[".data ++ m ++ rssSeg6 ++ m ++ rssSeg7 ++
      dateFmt kv.last_updated ++ rssSeg8 ++ m ++ rssSeg9, ?_⟩
    show generateRssFeed origin m (sanitizeDisplayName (rssDisplayName m))
      (dateFmt kv.last_updated) = _
    rw [generateRssFeed, escapeXml_sanitize,
      show rssSeg4 = "</lastBuildDate>\n  \n  <item>\n    ".data ++ "<title>".data
        from by decide,
      show rssSeg5 = "</title>".data ++ "\n    <link><![CDATA[".data from by decide]
    simp [List.append_assoc]
  · refine ⟨"magnet:?xt=urn:btih:".data ++ List.replicate 40 'a' ++ "&dn=a%3Cb".data,
      by decide, by decide⟩

/-- C10 witness: the sanitized-title occurrence applied at a concrete stored
identifier whose name parameter decodes to a string with a reserved
character. -/
theorem C10_sanitized_title_witness :
    containsSeg ("<title>".data ++
        sanitizeDisplayName (rssDisplayName ("magnet:?xt=urn:btih:".data ++
          List.replicate 40 'a' ++ "&dn=a%3Cb".data)) ++ "</title>".data)
      (handleRssRequest "o".data (fun _ => "d".data)
        ⟨some ("magnet:?xt=urn:btih:".data ++ List.replicate 40 'a' ++
          "&dn=a%3Cb".data), none⟩).body :=
  C10_sanitized_title.2.1 "o".data (fun _ => "d".data)
    ⟨some ("magnet:?xt=urn:btih:".data ++ List.replicate 40 'a' ++ "&dn=a%3Cb".data),
      none⟩
    ("magnet:?xt=urn:btih:".data ++ List.replicate 40 'a' ++ "&dn=a%3Cb".data) rfl
